import Mathlib

/-!
Shallow embedding of the intent-resolution and dispatch engine of
`hubspot_mcp_client.py` (class `HubSpotMCPClient`), together with the data it
manipulates: JSON values (the classifier decisions are Python dicts obtained
from `json.loads`), the greedy brace-fragment extraction of `analyze_intent`,
the email-pattern extractor of `process_smart_command`, and the dispatch and
session-loop control flow.

Python values flowing through the client are modelled by `JsonValue` (dicts
keep insertion order, as Python dicts do); Python exceptions that the client
code can raise are modelled by `Except PyErr`; printing and provider calls are
modelled as an event trace.
-/

/-- A Python/JSON value as produced by `json.loads` and manipulated by the
client.  Numbers are modelled as exact rationals. -/
inductive JsonValue where
  | jnull
  | jbool (b : Bool)
  | jnum (q : ℚ)
  | jstr (s : String)
  | jarr (xs : List JsonValue)
  | jobj (kvs : List (String × JsonValue))

/-- Python exceptions that can escape the client's own code paths. -/
inductive PyErr where
  | keyError (k : String)
  | typeError
  | valueError
deriving DecidableEq

/-- Lookup in a Python dict (first binding for a key; keys are unique by
construction since inserts replace in place). -/
def lookupD : List (String × JsonValue) → String → Option JsonValue
  | [], _ => none
  | (k0, v0) :: rest, k => if k0 = k then some v0 else lookupD rest k

/-- Key-membership test of a Python dict (`k in d`). -/
def containsKey (kvs : List (String × JsonValue)) (k : String) : Bool :=
  (lookupD kvs k).isSome

/-- Python dict assignment `d[k] = v`: replaces the value in place when the
key is present, appends a new binding otherwise (insertion order kept). -/
def dictInsert : List (String × JsonValue) → String → JsonValue → List (String × JsonValue)
  | [], k, v => [(k, v)]
  | (k0, v0) :: rest, k, v =>
      if k0 = k then (k0, v) :: rest else (k0, v0) :: dictInsert rest k v

/-- JSON whitespace recognised by `json.loads`. -/
def isJWs (c : Char) : Bool := c = ' ' || c = '\t' || c = '\n' || c = '\r'

/-- Drop leading JSON whitespace. -/
def skipWs (cs : List Char) : List Char := cs.dropWhile isJWs

/-- Value of a decimal digit string. -/
def digitsToNat (ds : List Char) : Nat :=
  ds.foldl (fun a c => a * 10 + (c.toNat - '0'.toNat)) 0

/-- Value of one hex digit, if the character is one (code points compared
numerically: 48-57 digits, 97-102 lowercase, 65-70 uppercase). -/
def hexVal (c : Char) : Option Nat :=
  let n := c.toNat
  if 48 ≤ n && n ≤ 57 then some (n - 48)
  else if 97 ≤ n && n ≤ 102 then some (n - 87)
  else if 65 ≤ n && n ≤ 70 then some (n - 55)
  else none

/-- Decode the body of a JSON string literal (after its opening quote),
processing escapes the way `json.loads` does; returns the decoded string and
the characters after the closing quote. -/
def pStrAux : List Char → List Char → Option (String × List Char)
  | [], _ => none
  | '"' :: r, acc => some (String.mk acc.reverse, r)
  | '\\' :: 'u' :: h1 :: h2 :: h3 :: h4 :: r, acc =>
      match hexVal h1, hexVal h2, hexVal h3, hexVal h4 with
      | some a, some b, some c, some d =>
          pStrAux r (Char.ofNat (((a * 16 + b) * 16 + c) * 16 + d) :: acc)
      | _, _, _, _ => none
  | '\\' :: e :: r, acc =>
      if e = '"' then pStrAux r ('"' :: acc)
      else if e = '\\' then pStrAux r ('\\' :: acc)
      else if e = '/' then pStrAux r ('/' :: acc)
      else if e = 'n' then pStrAux r ('\n' :: acc)
      else if e = 't' then pStrAux r ('\t' :: acc)
      else if e = 'r' then pStrAux r ('\r' :: acc)
      else if e = 'b' then pStrAux r (Char.ofNat 8 :: acc)
      else if e = 'f' then pStrAux r (Char.ofNat 12 :: acc)
      else none
  | c :: r, acc => pStrAux r (c :: acc)

/-- Exponent part of a JSON number (after `e`/`E`): optional sign then digits. -/
def pExpPart (cs : List Char) : Option (Bool × Nat × List Char) :=
  let (eneg, cs1) :=
    match cs with
    | '-' :: r => (true, r)
    | '+' :: r => (false, r)
    | _ => (false, cs)
  let ds := cs1.takeWhile Char.isDigit
  if ds.isEmpty then none else some (eneg, digitsToNat ds, cs1.drop ds.length)

/-- Apply a leading minus sign to a rational. -/
def applySign (neg : Bool) (q : ℚ) : ℚ := if neg then -q else q

/-- Parse a JSON number (the grammar `json.loads` accepts: optional minus,
integer part without leading zeros, optional fraction, optional exponent). -/
def pNum (cs : List Char) : Option (JsonValue × List Char) :=
  let (neg, cs1) := match cs with | '-' :: r => (true, r) | _ => (false, cs)
  let ds := cs1.takeWhile Char.isDigit
  if ds.isEmpty then none
  else if ds.length > 1 && ds.head? = some '0' then none
  else
    let cs2 := cs1.drop ds.length
    let intPart : ℚ := (digitsToNat ds : ℚ)
    let (base, cs3) : ℚ × List Char :=
      match cs2 with
      | '.' :: r =>
          let fs := r.takeWhile Char.isDigit
          if fs.isEmpty then ((0 : ℚ), [])
          else (intPart + (digitsToNat fs : ℚ) / ((10 : ℚ) ^ fs.length), r.drop fs.length)
      | _ => (intPart, cs2)
    match cs2 with
    | '.' :: r =>
        if (r.takeWhile Char.isDigit).isEmpty then none
        else
          match cs3 with
          | 'e' :: r2 =>
              (pExpPart r2).map fun (eneg, e, rest) =>
                (.jnum (applySign neg (if eneg then base / (10 : ℚ) ^ e else base * (10 : ℚ) ^ e)), rest)
          | 'E' :: r2 =>
              (pExpPart r2).map fun (eneg, e, rest) =>
                (.jnum (applySign neg (if eneg then base / (10 : ℚ) ^ e else base * (10 : ℚ) ^ e)), rest)
          | _ => some (.jnum (applySign neg base), cs3)
    | _ =>
        match cs3 with
        | 'e' :: r2 =>
            (pExpPart r2).map fun (eneg, e, rest) =>
              (.jnum (applySign neg (if eneg then base / (10 : ℚ) ^ e else base * (10 : ℚ) ^ e)), rest)
        | 'E' :: r2 =>
            (pExpPart r2).map fun (eneg, e, rest) =>
              (.jnum (applySign neg (if eneg then base / (10 : ℚ) ^ e else base * (10 : ℚ) ^ e)), rest)
        | _ => some (.jnum (applySign neg base), cs3)

mutual

/-- Fuel-bounded recursive-descent parser for one JSON value (the grammar of
`json.loads`); returns the value and the unconsumed characters. -/
def pVal : Nat → List Char → Option (JsonValue × List Char)
  | 0, _ => none
  | Nat.succ n, cs =>
      match skipWs cs with
      | 'n' :: 'u' :: 'l' :: 'l' :: r => some (.jnull, r)
      | 't' :: 'r' :: 'u' :: 'e' :: r => some (.jbool true, r)
      | 'f' :: 'a' :: 'l' :: 's' :: 'e' :: r => some (.jbool false, r)
      | '"' :: r => (pStrAux r []).map fun (s, r') => (.jstr s, r')
      | '{' :: r => pObj n r
      | '[' :: r => pArr n r
      | c :: r => pNum (c :: r)
      | [] => none

/-- Parse an object body (after the opening brace). -/
def pObj : Nat → List Char → Option (JsonValue × List Char)
  | 0, _ => none
  | Nat.succ n, cs =>
      match skipWs cs with
      | '}' :: r => some (.jobj [], r)
      | _ => pMembers n cs []

/-- Parse the members of a non-empty object body; duplicate keys overwrite in
place, as Python dicts do. -/
def pMembers : Nat → List Char → List (String × JsonValue) → Option (JsonValue × List Char)
  | 0, _, _ => none
  | Nat.succ n, cs, acc =>
      match skipWs cs with
      | '"' :: r =>
          match pStrAux r [] with
          | none => none
          | some (k, r1) =>
              match skipWs r1 with
              | ':' :: r2 =>
                  match pVal n r2 with
                  | none => none
                  | some (v, r3) =>
                      match skipWs r3 with
                      | ',' :: r4 => pMembers n r4 (dictInsert acc k v)
                      | '}' :: r4 => some (.jobj (dictInsert acc k v), r4)
                      | _ => none
              | _ => none
      | _ => none

/-- Parse an array body (after the opening bracket). -/
def pArr : Nat → List Char → Option (JsonValue × List Char)
  | 0, _ => none
  | Nat.succ n, cs =>
      match skipWs cs with
      | ']' :: r => some (.jarr [], r)
      | _ => pElems n cs []

/-- Parse the elements of a non-empty array body. -/
def pElems : Nat → List Char → List JsonValue → Option (JsonValue × List Char)
  | 0, _, _ => none
  | Nat.succ n, cs, acc =>
      match pVal n cs with
      | none => none
      | some (v, r) =>
          match skipWs r with
          | ',' :: r2 => pElems n r2 (acc ++ [v])
          | ']' :: r2 => some (.jarr (acc ++ [v]), r2)
          | _ => none

end

/-- The embedding of `json.loads`: parse a complete JSON document, requiring
the whole input to be consumed (trailing garbage is an error, as in Python);
`none` models the `json.JSONDecodeError` exception. -/
def jsonParse (s : String) : Option JsonValue :=
  let cs := s.toList
  match pVal (cs.length * 4 + 16) cs with
  | some (v, rest) => if (skipWs rest).isEmpty then some v else none
  | none => none

/-- The match of `re.search(r'\{.*\}', content, re.DOTALL)` on the list of
characters of `content`: with the greedy `.*` and DOTALL, the match (when one
exists) runs from the first `\x7b` to the last `\x7d` after it. -/
def greedyFragList (cs : List Char) : Option (List Char) :=
  match cs.dropWhile (fun c => !(c = '{')) with
  | [] => none
  | c :: rest =>
      let rev := rest.reverse.dropWhile (fun c2 => !(c2 = '}'))
      match rev with
      | [] => none
      | _ => some (c :: rev.reverse)

/-- String form of `greedyFragList`. -/
def greedyBraceFragment (content : String) : Option String :=
  (greedyFragList content.toList).map String.mk

/-- Navigation `response.json()['choices'][0]['message']['content']` performed
by `analyze_intent` on a 200 response, folded into an `Option`: any failure
(unparsable body, missing key, wrong shape, non-string content) raises inside
the `try` block in the source and is mapped to `none` here. -/
def extractContent (body : String) : Option String :=
  match jsonParse body with
  | some (.jobj kvs) =>
      match lookupD kvs "choices" with
      | some (.jarr (c0 :: _)) =>
          match c0 with
          | .jobj m =>
              match lookupD m "message" with
              | some (.jobj mm) =>
                  match lookupD mm "content" with
                  | some (.jstr s) => some s
                  | _ => none
              | _ => none
          | _ => none
      | _ => none
  | _ => none

/-- The degraded decision literal of `analyze_intent`:
`{"tool": "ask_groq", "params": {"question": user_input}, "confidence": conf}`. -/
def degraded (conf : ℚ) (text : String) : JsonValue :=
  .jobj [("tool", .jstr "ask_groq"),
         ("params", .jobj [("question", .jstr text)]),
         ("confidence", .jnum conf)]

/-- Outcome of the single HTTP POST that `analyze_intent` performs:
`fail` models a timeout or any other transport exception, `resp` a response
with its status code and raw body. -/
inductive ClassifierEnv where
  | fail
  | resp (status : Nat) (body : String)

/-- The embedding of `HubSpotMCPClient.analyze_intent`.  Returns the decision
dict together with a flag recording whether the network was consulted.  The
function is total: no failure of the classifier call escapes to the caller
(the source wraps the whole call in `try/except` and the missing-credential
check returns before any I/O). -/
def analyzeIntent (key : Option String) (env : ClassifierEnv) (text : String) :
    JsonValue × Bool :=
  match key with
  | none => (degraded 0 text, false)
  | some _ =>
      match env with
      | .fail => (degraded (1/2) text, true)
      | .resp status body =>
          if status = 200 then
            match extractContent body with
            | none => (degraded (1/2) text, true)
            | some content =>
                match greedyBraceFragment content with
                | none => (degraded (1/2) text, true)
                | some frag =>
                    match jsonParse frag with
                    | none => (degraded (1/2) text, true)
                    | some v => (v, true)
          else (degraded (1/2) text, true)

/-- Python word character for `\b` (ASCII range, which covers the inputs the
client handles). -/
def isWordC (c : Char) : Bool := c.isAlpha || c.isDigit || c = '_'

/-- Character class `[A-Za-z0-9._%+-]` (local part of the email pattern). -/
def isLocalC (c : Char) : Bool :=
  c.isAlpha || c.isDigit || c = '.' || c = '_' || c = '%' || c = '+' || c = '-'

/-- Character class `[A-Za-z0-9.-]` (domain part of the email pattern). -/
def isDomainC (c : Char) : Bool := c.isAlpha || c.isDigit || c = '.' || c = '-'

/-- Character class `[A-Z|a-z]` of the email pattern (note the literal `|`
inside the class, as written in the source regex). -/
def isTldC (c : Char) : Bool := c.isAlpha || c = '|'

/-- The `\b` word-boundary test between two adjacent positions (string edges
count as non-word). -/
def bdry (a b : Option Char) : Bool :=
  (match a with | some c => isWordC c | none => false) !=
  (match b with | some c => isWordC c | none => false)

/-- Backtracking over the `\x7b2,\x7d`-quantified TLD segment: the largest
`t' ≤ t` with `t' ≥ 2` such that the trailing `\b` holds after `t'` TLD
characters of `rest4`. -/
def tryTld (rest4 : List Char) : Nat → Option Nat
  | 0 => none
  | Nat.succ t =>
      if t + 1 ≥ 2 && bdry (rest4.get? t) (rest4.get? (t + 1)) then some (t + 1)
      else tryTld rest4 t

/-- Backtracking over the greedy domain segment: the largest `d' ≤ d` with
`d' ≥ 1` such that a literal dot, at least two TLD characters and the final
`\b` follow; returns the domain and TLD lengths. -/
def tryDom (rest2 : List Char) : Nat → Option (Nat × Nat)
  | 0 => none
  | Nat.succ d =>
      match rest2.drop (d + 1) with
      | '.' :: rest4 =>
          match tryTld rest4 (rest4.takeWhile isTldC).length with
          | some t => some (d + 1, t)
          | none => tryDom rest2 d
      | _ => tryDom rest2 d

/-- Attempt to match the email pattern
`\b[A-Za-z0-9._%+-]+@[A-Za-z0-9.-]+\.[A-Z|a-z]\x7b2,\x7d\b` anchored at the
current position (`prev` is the character before it); mirrors the
backtracking order of `re.search` for this pattern. -/
def matchEmailAt (prev : Option Char) (cs : List Char) : Option (List Char) :=
  if bdry prev cs.head? then
    let loc := cs.takeWhile isLocalC
    if loc.isEmpty then none
    else
      match cs.drop loc.length with
      | '@' :: rest2 =>
          match tryDom rest2 (rest2.takeWhile isDomainC).length with
          | some (d, t) =>
              match rest2.drop d with
              | '.' :: rest4 => some (loc ++ '@' :: (rest2.take d ++ '.' :: rest4.take t))
              | _ => none
          | none => none
      | _ => none
  else none

/-- Leftmost search for the email pattern, trying each start position from
left to right as `re.search` does. -/
def searchEmailAux : Option Char → List Char → Option (List Char)
  | _, [] => none
  | prev, c :: rest =>
      match matchEmailAt prev (c :: rest) with
      | some m => some m
      | none => searchEmailAux (some c) rest

/-- The embedding of
`re.search(r'\b[A-Za-z0-9._%+-]+@[A-Za-z0-9.-]+\.[A-Z|a-z]\x7b2,\x7d\b', user_input)`
used by `process_smart_command` to fill a missing email parameter. -/
def extractEmail (s : String) : Option String :=
  (searchEmailAux none s.toList).map String.mk

/-- Does the character list `needle` start the character list `hay`? -/
def startsWithL (needle hay : List Char) : Bool :=
  needle.length ≤ hay.length &&
    (needle.zip hay).all fun p => decide (p.1 = p.2)

/-- Substring test on character lists (Python `needle in hay` for strings). -/
def hasSubstr (needle : List Char) : List Char → Bool
  | [] => needle.isEmpty
  | c :: rest => startsWithL needle (c :: rest) || hasSubstr needle rest

/-- Python subscripting `v[k]` with a string key: dict lookup (KeyError when
the key is absent), TypeError on any non-dict value. -/
def jGet (v : JsonValue) (k : String) : Except PyErr JsonValue :=
  match v with
  | .jobj kvs =>
      match lookupD kvs k with
      | some x => .ok x
      | none => .error (.keyError k)
  | _ => .error .typeError

/-- Python containment `k in v` for a string `k`: key membership for dicts,
substring test for strings, element equality for lists, TypeError otherwise. -/
def jContains (k : String) (v : JsonValue) : Except PyErr Bool :=
  match v with
  | .jobj kvs => .ok (containsKey kvs k)
  | .jstr s => .ok (hasSubstr k.toList s.toList)
  | .jarr xs => .ok (xs.any fun x => match x with | .jstr t => t == k | _ => false)
  | _ => .error .typeError

/-- Python item assignment `v[k] = newVal`: dict insert, TypeError on any
non-dict value. -/
def jSetItem (k : String) (newVal : JsonValue) (v : JsonValue) : Except PyErr JsonValue :=
  match v with
  | .jobj kvs => .ok (.jobj (dictInsert kvs k newVal))
  | _ => .error .typeError

/-- Python equality of a value with a string literal (`tool_name == "..."`):
true exactly for the equal string. -/
def isStr (v : JsonValue) (s : String) : Bool :=
  match v with
  | .jstr t => t == s
  | _ => false

/-- Observable actions of one command cycle: console prints and calls to the
Tool Provider, in order. -/
inductive Event where
  | printExec (tool : String)
  | printData (params : JsonValue)
  | callTool (tool : String) (params : JsonValue)
  | printResult (payload : String)
  | printExecError (msg : String)
  | printUnrecognized (tool : JsonValue)
  | printInputError

/-- Behaviour of the Tool Provider for one call: the payload text on success
or the error text of the raised exception. -/
def ProviderEnv : Type := String → JsonValue → Except String String

/-- The embedding of `HubSpotMCPClient.process_query`: a silent no-op when no
session is connected; otherwise prints the execution banner, calls the
provider, and prints either the payload or the execution error (the call is
wrapped in `try/except`, so the function is total). -/
def processQuery (connected : Bool) (prov : ProviderEnv)
    (tool : String) (params : JsonValue) : List Event :=
  if connected then
    .printExec tool :: .printData params :: .callTool tool params ::
      (match prov tool params with
       | .ok payload => [.printResult payload]
       | .error e => [.printExecError e])
  else []

/-- One conditional fill-in of `process_smart_command`: test `k not in params`
and assign `params[k] = v` only when the key is absent. -/
def fillIfAbsent (k : String) (v : JsonValue) (ps : JsonValue) : Except PyErr JsonValue :=
  match jContains k ps with
  | .error e => .error e
  | .ok true => .ok ps
  | .ok false => jSetItem k v ps

/-- The email fill-in of `process_smart_command` (lines 128-131): when the
`email` key is absent, run the email pattern over the raw text and assign the
match if there is one (leave the parameters untouched otherwise). -/
def fillEmailIfAbsent (text : String) (ps : JsonValue) : Except PyErr JsonValue :=
  match jContains "email" ps with
  | .error e => .error e
  | .ok true => .ok ps
  | .ok false =>
      match extractEmail text with
      | some em => jSetItem "email" (.jstr em) ps
      | none => .ok ps

/-- The three parameter fill-ins of `process_smart_command` (lines 124-131):
fill `query` for `analyze_crm_data`, `question` for `ask_groq`, and an
extracted email for `search_contact_by_email`, each only when the classifier
left the key absent. -/
def resolveParams (tn : JsonValue) (ps : JsonValue) (text : String) : Except PyErr JsonValue :=
  match (if isStr tn "analyze_crm_data" then fillIfAbsent "query" (.jstr text) ps else .ok ps) with
  | .error e => .error e
  | .ok ps1 =>
      match (if isStr tn "ask_groq" then fillIfAbsent "question" (.jstr text) ps1 else .ok ps1) with
      | .error e => .error e
      | .ok ps2 =>
          if isStr tn "search_contact_by_email" then fillEmailIfAbsent text ps2 else .ok ps2

/-- A resolved invocation request: the operation value the classifier chose,
the parameter mapping after fill-ins, and the confidence carried in the
decision (if any). -/
structure Invocation where
  tool : JsonValue
  params : JsonValue
  confidence : Option JsonValue

/-- Confidence carried by a decision dict, when it is one. -/
def jLookup (v : JsonValue) (k : String) : Option JsonValue :=
  match v with
  | .jobj kvs => lookupD kvs k
  | _ => none

/-- Resolution phase of `process_smart_command` (lines 120-131): obtain the
decision from `analyze_intent`, read `intent["tool"]` and `intent["params"]`
(which can raise KeyError), and apply the fill-ins. -/
def resolveRequest (key : Option String) (cenv : ClassifierEnv) (text : String) :
    Except PyErr Invocation :=
  let intent := (analyzeIntent key cenv text).1
  match jGet intent "tool" with
  | .error e => .error e
  | .ok tn =>
      match jGet intent "params" with
      | .error e => .error e
      | .ok ps =>
          match resolveParams tn ps text with
          | .error e => .error e
          | .ok ps' => .ok ⟨tn, ps', jLookup intent "confidence"⟩

/-- The embedding of `HubSpotMCPClient.process_smart_command`: resolve, then
dispatch when the resolved name is in `available_tools`, otherwise print the
unrecognized-operation message.  The body has no exception handler, so a
`PyErr` raised during resolution escapes to the caller. -/
def processSmartCommand (key : Option String) (cenv : ClassifierEnv)
    (tools : List String) (connected : Bool) (prov : ProviderEnv)
    (text : String) : Except PyErr (List Event) :=
  match resolveRequest key cenv text with
  | .error e => .error e
  | .ok inv =>
      match inv.tool with
      | .jstr s =>
          if tools.contains s then .ok (processQuery connected prov s inv.params)
          else .ok [.printUnrecognized (.jstr s)]
      | t => .ok [.printUnrecognized t]

/-- Python `str.strip()`. -/
def pyStrip (s : String) : String :=
  String.mk (((s.toList.dropWhile Char.isWhitespace).reverse.dropWhile Char.isWhitespace).reverse)

/-- Python `str.lower()` (ASCII range). -/
def pyLower (s : String) : String := String.mk (s.toList.map Char.toLower)

/-- Python `int(s)` on an already-stripped string: optional sign then at
least one decimal digit; `none` models the ValueError. -/
def pyInt (s : String) : Option Int :=
  let cs := s.toList
  let (neg, cs1) := match cs with | '-' :: r => (true, r) | '+' :: r => (false, r) | _ => (false, cs)
  if cs1.isEmpty || !(cs1.all Char.isDigit) then none
  else some (if neg then -(digitsToNat cs1 : Int) else (digitsToNat cs1 : Int))

/-- The embedding of `HubSpotMCPClient.manual_command`: guided prompts for the
six known operation names (`inputs` are the successive prompt answers).  The
whole body is wrapped in `try/except`, so the function is total: an invalid
numeric literal prints the input error and ends the cycle. -/
def manualCommand (connected : Bool) (prov : ProviderEnv)
    (command : String) (inputs : List String) : List Event :=
  if command = "get_contacts" || command = "get_deals" then
    let limit := pyStrip (inputs.getD 0 "")
    if limit = "" then processQuery connected prov command (.jobj [("limit", .jnum 10)])
    else
      match pyInt limit with
      | some n => processQuery connected prov command (.jobj [("limit", .jnum (n : ℚ))])
      | none => [.printInputError]
  else if command = "create_contact" then
    processQuery connected prov command
      (.jobj [("email", .jstr (pyStrip (inputs.getD 0 ""))),
              ("firstname", .jstr (pyStrip (inputs.getD 1 ""))),
              ("lastname", .jstr (pyStrip (inputs.getD 2 "")))])
  else if command = "analyze_crm_data" then
    processQuery connected prov command (.jobj [("query", .jstr (pyStrip (inputs.getD 0 "")))])
  else if command = "search_contact_by_email" then
    processQuery connected prov command (.jobj [("email", .jstr (pyStrip (inputs.getD 0 "")))])
  else if command = "ask_groq" then
    processQuery connected prov command (.jobj [("question", .jstr (pyStrip (inputs.getD 0 "")))])
  else []

/-- One iteration of `HubSpotMCPClient.smart_chat_loop`: strip the input,
break on `quit` (case-insensitively), take the guided path for a recognized
operation name (always handled), otherwise run `process_smart_command`, whose
exceptions escape the loop uncaught.  The boolean is true when the loop goes
on waiting for the next input. -/
def loopStep (key : Option String) (cenv : ClassifierEnv) (tools : List String)
    (connected : Bool) (prov : ProviderEnv) (userInput : String)
    (inputs : List String) : Except PyErr (Bool × List Event) :=
  let u := pyStrip userInput
  if pyLower u = "quit" then .ok (false, [])
  else if tools.contains u then .ok (true, manualCommand connected prov u inputs)
  else
    match processSmartCommand key cenv tools connected prov u with
    | .ok evs => .ok (true, evs)
    | .error e => .error e

/-- The mutable attributes of a `HubSpotMCPClient` read by the command cycle. -/
structure ClientState where
  groq_api_key : Option String
  available_tools : List String
  connected : Bool

/-- State-threading form of `process_query`: the method assigns to no
attribute of `self`, so the state passes through unchanged. -/
def processQuerySt (st : ClientState) (prov : ProviderEnv)
    (tool : String) (params : JsonValue) : ClientState × List Event :=
  (st, processQuery st.connected prov tool params)

/-- State-threading form of `process_smart_command`: the method assigns to no
attribute of `self`, so the state passes through unchanged. -/
def processSmartCommandSt (st : ClientState) (cenv : ClassifierEnv)
    (prov : ProviderEnv) (text : String) : ClientState × Except PyErr (List Event) :=
  (st, processSmartCommand st.groq_api_key cenv st.available_tools st.connected prov text)

/-- Resolve a text, run the full command cycle on it, and resolve the same
text again from the state the cycle left behind; returns both resolutions. -/
def resolveTwice (st : ClientState) (cenv : ClassifierEnv) (prov : ProviderEnv)
    (text : String) : Except PyErr Invocation × Except PyErr Invocation :=
  let r1 := resolveRequest st.groq_api_key cenv text
  let st1 := (processSmartCommandSt st cenv prov text).1
  let r2 := resolveRequest st1.groq_api_key cenv text
  (r1, r2)

/-- Modelled from the spec: the "first balanced-looking JSON-object substring"
of the reply — scan from the first `\x7b` and stop at the brace that closes
it (depth counting).  Stated only to compare the spec's extraction rule with
the source's greedy regex. -/
def balancedScan : List Char → Nat → List Char → Option (List Char)
  | [], _, _ => none
  | c :: rest, depth, acc =>
      if c = '{' then balancedScan rest (depth + 1) (c :: acc)
      else if c = '}' then
        if depth ≤ 1 then some (c :: acc).reverse
        else balancedScan rest (depth - 1) (c :: acc)
      else balancedScan rest depth (c :: acc)

/-- Modelled from the spec: the first balanced JSON-object substring of the
message content, when one exists. -/
def firstBalancedFragment (content : String) : Option String :=
  match content.toList.dropWhile (fun c => !(c = '{')) with
  | [] => none
  | l => (balancedScan l 0 []).map String.mk

/-- Modelled from the spec: the decision that §4.2/§4.3 describe for a 2xx
reply — fold in the first balanced JSON-object substring of the content, and
degrade when there is none or it does not parse. -/
def specDecision (content : String) (text : String) : JsonValue :=
  match firstBalancedFragment content with
  | none => degraded (1/2) text
  | some frag => (jsonParse frag).getD (degraded (1/2) text)

/-- Inserting a key that is absent from a dict appends the new binding. -/
theorem dictInsert_absent (kvs : List (String × JsonValue)) (k : String) (v : JsonValue)
    (h : containsKey kvs k = false) : dictInsert kvs k v = kvs ++ [(k, v)] := by
  induction kvs with
  | nil => simp [dictInsert]
  | cons hd tl ih =>
      obtain ⟨k0, v0⟩ := hd
      simp only [containsKey, lookupD] at h
      by_cases h0 : k0 = k
      · simp [h0, Option.isSome] at h
      · simp only [dictInsert, if_neg h0, List.cons_append, List.cons.injEq, true_and]
        exact ih (by simpa [containsKey, lookupD, h0] using h)

/-- Inserting a key that is absent from a dict preserves every existing
binding. -/
theorem lookupD_dictInsert_preserve (kvs : List (String × JsonValue)) (k0 : String)
    (x : JsonValue) (k : String) (v : JsonValue)
    (habs : containsKey kvs k0 = false) (h : lookupD kvs k = some v) :
    lookupD (dictInsert kvs k0 x) k = some v := by
  induction kvs with
  | nil => simp [lookupD] at h
  | cons hd tl ih =>
      obtain ⟨k1, v1⟩ := hd
      simp only [containsKey, lookupD] at habs
      by_cases h1 : k1 = k0
      · simp [h1, Option.isSome] at habs
      · simp only [lookupD] at h
        by_cases h2 : k1 = k
        · subst h2
          simp only [dictInsert, if_neg h1, lookupD, if_pos rfl]
          simpa using h
        · simp only [if_neg h2] at h
          simp only [dictInsert, if_neg h1, lookupD, if_neg h2]
          exact ih (by simpa [containsKey, lookupD, h1] using habs) h

/-- C3: for every user text, when no Classifier Service credential is
configured, `analyze_intent` returns the degraded decision with tool
`ask_groq`, params `{"question": text}` and confidence exactly 0.0, and the
network flag stays false (no I/O is attempted). -/
theorem analyzeIntent_no_credential (env : ClassifierEnv) (text : String) :
    analyzeIntent none env text =
      (.jobj [("tool", .jstr "ask_groq"),
              ("params", .jobj [("question", .jstr text)]),
              ("confidence", .jnum 0)], false) := rfl

/-- C10: when no Tool Provider session is connected, `process_query` is a
silent no-op: no events (neither prints nor provider calls) and the client
state is returned unchanged. -/
theorem processQuery_no_session (k : Option String) (tools : List String)
    (prov : ProviderEnv) (tool : String) (params : JsonValue) :
    processQuerySt ⟨k, tools, false⟩ prov tool params = (⟨k, tools, false⟩, []) := rfl

/-- C9: resolving the same text twice, with the full command cycle of the
first resolution run in between, yields identical resolved invocation
requests (same operation value, parameter mapping and confidence), because
the cycle leaves the client state unchanged and resolution is a pure function
of the state, the classifier environment and the text. -/
theorem resolve_idempotent (st : ClientState) (cenv : ClassifierEnv)
    (prov : ProviderEnv) (text : String) :
    (resolveTwice st cenv prov text).1 = (resolveTwice st cenv prov text).2 := rfl

/-- Failure conditions of the classifier call listed by the claim: transport
failure or timeout, a non-2xx status, an unparsable body (or one without the
expected navigation shape), or a reply whose content holds no fragment of the
searched `\x7b.*\x7d` form. -/
def classifierFailed : ClassifierEnv → Bool
  | .fail => true
  | .resp status body =>
      decide (status < 200) || decide (300 ≤ status) ||
      (match extractContent body with
       | none => true
       | some content => (greedyBraceFragment content).isNone)

/-- C1: with a credential configured, whenever the classifier call fails in
any of the listed ways, `analyze_intent` returns the degraded decision with
tool `ask_groq`, params `{"question": text}` and confidence 0.5; the
embedding is a total function, so no failure propagates as an exception. -/
theorem analyzeIntent_degrades_on_failure (k : String) (env : ClassifierEnv)
    (text : String) (h : classifierFailed env = true) :
    (analyzeIntent (some k) env text).1 =
      .jobj [("tool", .jstr "ask_groq"),
             ("params", .jobj [("question", .jstr text)]),
             ("confidence", .jnum (1/2))] := by
  cases env with
  | fail => rfl
  | resp status body =>
      by_cases hs : status = 200
      · subst hs
        simp only [classifierFailed] at h
        norm_num at h
        simp only [analyzeIntent, if_pos rfl]
        cases hc : extractContent body with
        | none => simp [degraded]
        | some content =>
            rw [hc] at h
            simp only [Option.isNone_iff_eq_none] at h
            simp [hc, h, degraded]
      · simp [analyzeIntent, hs, degraded]

/-- Witness for C1 at a concrete failing environment (a transport failure). -/
theorem analyzeIntent_degrades_on_failure_witness :
    classifierFailed .fail = true ∧
    (analyzeIntent (some "key") .fail "hi").1 =
      .jobj [("tool", .jstr "ask_groq"),
             ("params", .jobj [("question", .jstr "hi")]),
             ("confidence", .jnum (1/2))] :=
  ⟨rfl, analyzeIntent_degrades_on_failure "key" .fail "hi" rfl⟩

/-- C2: whenever resolution completes and the resolved operation value is
not the name of a catalog member (either a string outside `available_tools`
or not a string at all), `process_smart_command` reports the
unrecognized-operation message and produces no provider call. -/
theorem dispatch_unrecognized (key : Option String) (cenv : ClassifierEnv)
    (tools : List String) (connected : Bool) (prov : ProviderEnv) (text : String)
    (inv : Invocation)
    (hres : resolveRequest key cenv text = .ok inv)
    (hnot : ∀ s, inv.tool = .jstr s → tools.contains s = false) :
    processSmartCommand key cenv tools connected prov text =
      .ok [.printUnrecognized inv.tool] ∧
    ∀ evs, processSmartCommand key cenv tools connected prov text = .ok evs →
      ∀ t p, Event.callTool t p ∉ evs := by
  have hmain : processSmartCommand key cenv tools connected prov text =
      .ok [.printUnrecognized inv.tool] := by
    simp only [processSmartCommand, hres]
    cases htool : inv.tool
    case jstr s =>
      show (if tools.contains s = true then
              Except.ok (processQuery connected prov s inv.params)
            else Except.ok [Event.printUnrecognized (JsonValue.jstr s)]) =
          Except.ok [Event.printUnrecognized (JsonValue.jstr s)]
      rw [hnot s htool]
      simp
    all_goals rfl
  refine ⟨hmain, fun evs hevs t p hmem => ?_⟩
  rw [hmain] at hevs
  cases hevs
  simp at hmem

/-- Witness for C2: with no credential the decision degrades to `ask_groq`,
which is absent from an empty catalog; the dispatcher prints the
unrecognized-operation message. -/
theorem dispatch_unrecognized_witness :
    processSmartCommand none .fail [] false (fun _ _ => .ok "") "hi" =
      .ok [.printUnrecognized (.jstr "ask_groq")] :=
  (dispatch_unrecognized none .fail [] false (fun _ _ => .ok "") "hi"
    ⟨.jstr "ask_groq", .jobj [("question", .jstr "hi")], some (.jnum 0)⟩
    rfl (fun _ _ => rfl)).1

/-- Filling a key that is absent appends exactly the given binding. -/
theorem fillIfAbsent_absent (key : String) (w : JsonValue)
    (kvs : List (String × JsonValue)) (h : containsKey kvs key = false) :
    fillIfAbsent key w (.jobj kvs) = .ok (.jobj (kvs ++ [(key, w)])) := by
  simp only [fillIfAbsent, jContains, h, jSetItem, dictInsert_absent kvs key w h]

/-- C4: when the classifier decision names `search_contact_by_email` and its
parameters lack an `email` key, and the email pattern matches the text,
resolution appends exactly the matched address under the `email` key. -/
theorem email_filled_from_text (kvs : List (String × JsonValue)) (text e : String)
    (habs : lookupD kvs "email" = none) (hmail : extractEmail text = some e) :
    resolveParams (.jstr "search_contact_by_email") (.jobj kvs) text =
      .ok (.jobj (kvs ++ [("email", .jstr e)])) := by
  have hck : containsKey kvs "email" = false := by simp [containsKey, habs]
  show fillEmailIfAbsent text (.jobj kvs) = .ok (.jobj (kvs ++ [("email", .jstr e)]))
  simp only [fillEmailIfAbsent, jContains, hck, hmail, jSetItem,
    dictInsert_absent kvs "email" (.jstr e) hck]

/-- Witness for C4 at the scenario of the spec: text `look up bob@test.org`
with empty classifier parameters resolves to `email = bob@test.org`. -/
theorem email_filled_from_text_witness :
    lookupD [] "email" = none ∧
    extractEmail "look up bob@test.org" = some "bob@test.org" ∧
    resolveParams (.jstr "search_contact_by_email") (.jobj [])
      "look up bob@test.org" = .ok (.jobj [("email", .jstr "bob@test.org")]) :=
  ⟨rfl, rfl, email_filled_from_text [] "look up bob@test.org" "bob@test.org" rfl rfl⟩

/-- C5: when the decision names `ask_groq` and lacks the `question` key,
resolution appends `question = text` verbatim; when it names
`analyze_crm_data` and lacks the `query` key, resolution appends
`query = text` verbatim. -/
theorem whole_input_filled :
    (∀ (kvs : List (String × JsonValue)) (text : String),
        lookupD kvs "question" = none →
        resolveParams (.jstr "ask_groq") (.jobj kvs) text =
          .ok (.jobj (kvs ++ [("question", .jstr text)]))) ∧
    (∀ (kvs : List (String × JsonValue)) (text : String),
        lookupD kvs "query" = none →
        resolveParams (.jstr "analyze_crm_data") (.jobj kvs) text =
          .ok (.jobj (kvs ++ [("query", .jstr text)]))) := by
  constructor
  · intro kvs text habs
    have hck : containsKey kvs "question" = false := by simp [containsKey, habs]
    show (match fillIfAbsent "question" (.jstr text) (.jobj kvs) with
          | .error e => .error e
          | .ok ps2 => Except.ok ps2) =
        Except.ok (.jobj (kvs ++ [("question", .jstr text)]))
    rw [fillIfAbsent_absent "question" (.jstr text) kvs hck]
  · intro kvs text habs
    have hck : containsKey kvs "query" = false := by simp [containsKey, habs]
    show (match fillIfAbsent "query" (.jstr text) (.jobj kvs) with
          | .error e => .error e
          | .ok ps1 => Except.ok ps1) =
        Except.ok (.jobj (kvs ++ [("query", .jstr text)]))
    rw [fillIfAbsent_absent "query" (.jstr text) kvs hck]

/-- Witness for C5 at empty classifier parameters on both operations. -/
theorem whole_input_filled_witness :
    resolveParams (.jstr "ask_groq") (.jobj []) "hi" =
      .ok (.jobj [("question", .jstr "hi")]) ∧
    resolveParams (.jstr "analyze_crm_data") (.jobj []) "hi" =
      .ok (.jobj [("query", .jstr "hi")]) :=
  ⟨whole_input_filled.1 [] "hi" rfl, whole_input_filled.2 [] "hi" rfl⟩

/-- A conditional fill on a dict always succeeds with a dict and preserves
every binding that was already present. -/
theorem fillIfAbsent_jobj_ok (key : String) (w : JsonValue)
    (kvs : List (String × JsonValue)) :
    ∃ kvs', fillIfAbsent key w (.jobj kvs) = .ok (.jobj kvs') ∧
      ∀ k v, lookupD kvs k = some v → lookupD kvs' k = some v := by
  cases hc : containsKey kvs key with
  | true => exact ⟨kvs, by simp [fillIfAbsent, jContains, hc], fun _ _ h => h⟩
  | false =>
      exact ⟨dictInsert kvs key w, by simp [fillIfAbsent, jContains, hc, jSetItem],
        fun k v h => lookupD_dictInsert_preserve kvs key w k v hc h⟩

/-- The email fill on a dict always succeeds with a dict and preserves every
binding that was already present. -/
theorem fillEmailIfAbsent_jobj_ok (text : String) (kvs : List (String × JsonValue)) :
    ∃ kvs', fillEmailIfAbsent text (.jobj kvs) = .ok (.jobj kvs') ∧
      ∀ k v, lookupD kvs k = some v → lookupD kvs' k = some v := by
  cases hc : containsKey kvs "email" with
  | true => exact ⟨kvs, by simp [fillEmailIfAbsent, jContains, hc], fun _ _ h => h⟩
  | false =>
      cases hm : extractEmail text with
      | none => exact ⟨kvs, by simp [fillEmailIfAbsent, jContains, hc, hm], fun _ _ h => h⟩
      | some em =>
          exact ⟨dictInsert kvs "email" (.jstr em),
            by simp [fillEmailIfAbsent, jContains, hc, hm, jSetItem],
            fun k v h => lookupD_dictInsert_preserve kvs "email" (.jstr em) k v hc h⟩

/-- A guarded conditional fill on a dict always succeeds with a dict and
preserves every binding that was already present. -/
theorem condFill_jobj_ok (b : Bool) (key : String) (w : JsonValue)
    (kvs : List (String × JsonValue)) :
    ∃ kvs', (if b then fillIfAbsent key w (.jobj kvs) else .ok (.jobj kvs)) =
        .ok (.jobj kvs') ∧
      ∀ k v, lookupD kvs k = some v → lookupD kvs' k = some v := by
  cases b with
  | false => exact ⟨kvs, rfl, fun _ _ h => h⟩
  | true => simpa using fillIfAbsent_jobj_ok key w kvs

/-- C6: resolution never overwrites a parameter the classifier provided:
whenever the fill-in phase succeeds on a decision whose parameters form a
mapping, every key present in that mapping still maps to its original value
afterwards (fills only touch absent keys). -/
theorem classifier_values_win (tn : JsonValue) (kvs : List (String × JsonValue))
    (text : String) (ps' : JsonValue)
    (hres : resolveParams tn (.jobj kvs) text = .ok ps')
    (k : String) (v : JsonValue) (hk : lookupD kvs k = some v) :
    ∃ kvs', ps' = .jobj kvs' ∧ lookupD kvs' k = some v := by
  obtain ⟨kvs1, e1, p1⟩ := condFill_jobj_ok (isStr tn "analyze_crm_data") "query" (.jstr text) kvs
  obtain ⟨kvs2, e2, p2⟩ := condFill_jobj_ok (isStr tn "ask_groq") "question" (.jstr text) kvs1
  simp only [resolveParams, e1, e2] at hres
  cases hb : isStr tn "search_contact_by_email" with
  | false =>
      rw [hb] at hres
      simp only [Bool.false_eq_true, if_false] at hres
      cases hres
      exact ⟨kvs2, rfl, p2 k v (p1 k v hk)⟩
  | true =>
      obtain ⟨kvs3, e3, p3⟩ := fillEmailIfAbsent_jobj_ok text kvs2
      rw [hb] at hres
      simp only [if_true, e3] at hres
      cases hres
      exact ⟨kvs3, rfl, p3 k v (p2 k v (p1 k v hk))⟩

/-- Witness for C6: a classifier-provided `question` survives resolution
unchanged. -/
theorem classifier_values_win_witness :
    resolveParams (.jstr "ask_groq") (.jobj [("question", .jstr "keep")]) "hello" =
      .ok (.jobj [("question", .jstr "keep")]) ∧
    ∃ kvs', JsonValue.jobj [("question", .jstr "keep")] = .jobj kvs' ∧
      lookupD kvs' "question" = some (.jstr "keep") :=
  ⟨rfl, classifier_values_win (.jstr "ask_groq") [("question", .jstr "keep")]
    "hello" (.jobj [("question", .jstr "keep")]) rfl "question" (.jstr "keep") rfl⟩

/-- Message content that separates the source's greedy extraction from the
spec's balanced extraction: a complete decision object followed by prose that
contains one more closing brace. -/
def c7Content : String :=
  "\x7b\"tool\": \"get_deals\", \"params\": \x7b\x7d, \"confidence\": 0.9\x7d x \x7d"

/-- A 200 reply body whose message content is `c7Content` (with the quotes of
the embedded object escaped, as the Classifier Service would send it). -/
def c7Body : String :=
  "\x7b\"choices\": [\x7b\"message\": \x7b\"content\": \"\x7b\\\"tool\\\": \\\"get_deals\\\", \\\"params\\\": \x7b\x7d, \\\"confidence\\\": 0.9\x7d x \x7d\"\x7d\x7d]\x7d"

/-- Counterexample to C7 as stated: on this 200 reply the first balanced
JSON-object substring of the content parses to the `get_deals` decision, but
`analyze_intent` extracts greedily up to the last close brace, fails to parse
the result, and degrades to the 0.5 fallback — so the folded fragment is not
the first balanced JSON-object substring. -/
theorem greedy_vs_balanced_counterexample :
    extractContent c7Body = some c7Content ∧
    (analyzeIntent (some "k") (.resp 200 c7Body) "t").1 = degraded (1/2) "t" ∧
    jLookup (specDecision c7Content "t") "tool" = some (.jstr "get_deals") ∧
    (analyzeIntent (some "k") (.resp 200 c7Body) "t").1 ≠ specDecision c7Content "t" := by
  refine ⟨rfl, rfl, rfl, ?_⟩
  intro h
  have h2 : jLookup ((analyzeIntent (some "k") (.resp 200 c7Body) "t").1) "tool" =
      jLookup (specDecision c7Content "t") "tool" := by rw [h]
  rw [show jLookup ((analyzeIntent (some "k") (.resp 200 c7Body) "t").1) "tool" =
        some (.jstr "ask_groq") from rfl,
      show jLookup (specDecision c7Content "t") "tool" =
        some (.jstr "get_deals") from rfl] at h2
  simp at h2

/-- C7 (amended): for every 200 reply whose content extraction succeeds, the
fragment folded into the decision is the greedy substring of the message
content from the first open brace to the last close brace (the match of the
source's DOTALL pattern); when there is no such substring, or it fails to
parse as JSON, the result is the degraded decision with confidence 0.5. -/
theorem greedy_fragment_folded (k : String) (body text content : String)
    (hc : extractContent body = some content) :
    (analyzeIntent (some k) (.resp 200 body) text).1 =
      match greedyBraceFragment content with
      | none => degraded (1/2) text
      | some frag => (jsonParse frag).getD (degraded (1/2) text) := by
  cases hg : greedyBraceFragment content with
  | none => simp [analyzeIntent, hc, hg]
  | some frag =>
      cases hp : jsonParse frag with
      | none => simp [analyzeIntent, hc, hg, hp]
      | some v => simp [analyzeIntent, hc, hg, hp]

/-- A 200 reply whose message content holds no brace fragment at all. -/
def c7WitnessBody : String :=
  "\x7b\"choices\": [\x7b\"message\": \x7b\"content\": \"no braces here\"\x7d\x7d]\x7d"

/-- Witness for the amended C7 at a content without any brace fragment. -/
theorem greedy_fragment_folded_witness :
    extractContent c7WitnessBody = some "no braces here" ∧
    (analyzeIntent (some "k") (.resp 200 c7WitnessBody) "t").1 = degraded (1/2) "t" :=
  ⟨rfl, (greedy_fragment_folded "k" c7WitnessBody "t" "no braces here" rfl).trans rfl⟩

/-- Is a classifier decision shaped the way `process_smart_command` assumes:
an object carrying a `tool` key and a `params` key whose value is itself an
object? -/
def wellFormedDecision : JsonValue → Bool
  | .jobj kvs =>
      (lookupD kvs "tool").isSome &&
      (match lookupD kvs "params" with
       | some (.jobj _) => true
       | _ => false)
  | _ => false

/-- The fill-in phase always succeeds on a decision whose parameters form a
mapping. -/
theorem resolveParams_jobj_ok (tn : JsonValue) (kvs : List (String × JsonValue))
    (text : String) :
    ∃ kvs', resolveParams tn (.jobj kvs) text = .ok (.jobj kvs') := by
  obtain ⟨kvs1, e1, -⟩ := condFill_jobj_ok (isStr tn "analyze_crm_data") "query" (.jstr text) kvs
  obtain ⟨kvs2, e2, -⟩ := condFill_jobj_ok (isStr tn "ask_groq") "question" (.jstr text) kvs1
  cases hb : isStr tn "search_contact_by_email" with
  | false => exact ⟨kvs2, by simp only [resolveParams, e1, e2, hb, Bool.false_eq_true, if_false]⟩
  | true =>
      obtain ⟨kvs3, e3, -⟩ := fillEmailIfAbsent_jobj_ok text kvs2
      exact ⟨kvs3, by simp only [resolveParams, e1, e2, hb, if_true, e3]⟩

/-- Resolution completes without an exception whenever the decision produced
by `analyze_intent` is well-formed. -/
theorem resolveRequest_ok_of_wellFormed (key : Option String) (cenv : ClassifierEnv)
    (text : String)
    (h : wellFormedDecision ((analyzeIntent key cenv text).1) = true) :
    ∃ inv, resolveRequest key cenv text = .ok inv := by
  cases hv : (analyzeIntent key cenv text).1 with
  | jobj kvs =>
      rw [hv] at h
      simp only [wellFormedDecision, Bool.and_eq_true] at h
      obtain ⟨h1, h2⟩ := h
      obtain ⟨tn, ht⟩ := Option.isSome_iff_exists.mp h1
      cases hp : lookupD kvs "params" with
      | none => rw [hp] at h2; simp at h2
      | some pv =>
          cases pv with
          | jobj pkvs =>
              obtain ⟨kvs', hr⟩ := resolveParams_jobj_ok tn pkvs text
              refine ⟨⟨tn, .jobj kvs', lookupD kvs "confidence"⟩, ?_⟩
              simp only [resolveRequest, hv, jGet, ht, hp, hr, jLookup]
          | jnull => rw [hp] at h2; simp at h2
          | jbool b => rw [hp] at h2; simp at h2
          | jnum q => rw [hp] at h2; simp at h2
          | jstr s => rw [hp] at h2; simp at h2
          | jarr xs => rw [hp] at h2; simp at h2
  | jnull => rw [hv] at h; simp [wellFormedDecision] at h
  | jbool b => rw [hv] at h; simp [wellFormedDecision] at h
  | jnum q => rw [hv] at h; simp [wellFormedDecision] at h
  | jstr s => rw [hv] at h; simp [wellFormedDecision] at h
  | jarr xs => rw [hv] at h; simp [wellFormedDecision] at h

/-- Once resolution completed, dispatch always returns normally (the
unrecognized-operation path prints instead of raising, and `process_query`
catches every provider failure). -/
theorem processSmartCommand_ok_of_resolve (key : Option String) (cenv : ClassifierEnv)
    (tools : List String) (connected : Bool) (prov : ProviderEnv) (text : String)
    (inv : Invocation) (hr : resolveRequest key cenv text = .ok inv) :
    ∃ evs, processSmartCommand key cenv tools connected prov text = .ok evs := by
  simp only [processSmartCommand, hr]
  cases htool : inv.tool with
  | jstr s =>
      cases hc : tools.contains s with
      | true =>
          have hm : s ∈ tools := by simpa using hc
          exact ⟨processQuery connected prov s inv.params, by simp [hm]⟩
      | false =>
          have hm : s ∉ tools := by simpa using hc
          exact ⟨[.printUnrecognized (.jstr s)], by simp [hm]⟩
  | jnull => exact ⟨_, rfl⟩
  | jbool b => exact ⟨_, rfl⟩
  | jnum q => exact ⟨_, rfl⟩
  | jarr xs => exact ⟨_, rfl⟩
  | jobj kvs => exact ⟨_, rfl⟩

/-- C8 (amended): provided the decision `analyze_intent` produces for the
stripped input is well-formed (an object with a `tool` key and an object
under `params` — the degraded decisions always are), one iteration of the
session loop never raises: classifier failures, unrecognized operations,
provider errors and invalid manual-mode numeric input all resolve to events
and the loop goes on (or breaks normally on `quit`). -/
theorem loop_survives_wellFormed (key : Option String) (cenv : ClassifierEnv)
    (tools : List String) (connected : Bool) (prov : ProviderEnv)
    (userInput : String) (inputs : List String)
    (h : wellFormedDecision ((analyzeIntent key cenv (pyStrip userInput)).1) = true) :
    ∃ r, loopStep key cenv tools connected prov userInput inputs = .ok r := by
  simp only [loopStep]
  by_cases hq : pyLower (pyStrip userInput) = "quit"
  · exact ⟨(false, []), by rw [if_pos hq]⟩
  · rw [if_neg hq]
    cases ht : tools.contains (pyStrip userInput) with
    | true =>
        exact ⟨(true, manualCommand connected prov (pyStrip userInput) inputs), by simp⟩
    | false =>
        obtain ⟨inv, hr⟩ := resolveRequest_ok_of_wellFormed key cenv (pyStrip userInput) h
        obtain ⟨evs, he⟩ :=
          processSmartCommand_ok_of_resolve key cenv tools connected prov (pyStrip userInput) inv hr
        exact ⟨(true, evs), by simp [he]⟩

/-- Witness for the amended C8: with no credential the degraded decision is
well-formed and the iteration returns normally. -/
theorem loop_survives_wellFormed_witness :
    wellFormedDecision ((analyzeIntent none .fail (pyStrip "hello")).1) = true ∧
    ∃ r, loopStep none .fail [] false (fun _ _ => .ok "") "hello" [] = .ok r :=
  ⟨rfl, loop_survives_wellFormed none .fail [] false (fun _ _ => .ok "") "hello" [] rfl⟩

/-- A 200 reply whose content parses to an object without a `tool` key. -/
def c8Body : String :=
  "\x7b\"choices\": [\x7b\"message\": \x7b\"content\": \"\x7b\\\"foo\\\": 1\x7d\"\x7d\x7d]\x7d"

/-- Counterexample to C8 as stated: a classifier reply whose decision object
lacks the `tool` key makes `intent["tool"]` raise a KeyError that no handler
catches, so the loop iteration terminates with an exception instead of a
message — an error in a resolution path does escape the Session Loop. -/
theorem loop_keyError_counterexample :
    loopStep (some "k") (.resp 200 c8Body) ["get_contacts"] true
      (fun _ _ => .ok "ok") "hello" [] = .error (.keyError "tool") := rfl
